import Mathlib

/-!
Verification development for the mpitcl inter-rank messaging layer.

The definitions below are shallow embeddings of the C++ sources:

* `executeCmd`, `sendCmd`, `handleCmd`, `stopNotifierCmd`, `startNotifierCmd`
  embed the subcommand methods of class `CTclMpi` (mpitcl.cpp).
* `mpiEventProcessor` embeds the tag dispatch of `mpiEventProcessor`
  (mpitcl.cpp).
* `CMPIDataGetter.read` embeds the pull-protocol consumer
  (`CMPIDataGetter::read`, mpiSpecTclPackage.cpp).
* `handleData` / `runDownConsumers` / `endFileToConsumer` embed the
  pull-protocol producer (`CMPIDistributor`, mpiSpecTclPackage.cpp).

Blocking MPI receives are modelled by passing the stream of pending
request arrivals explicitly as a list; a function returns `none` exactly
when the corresponding C++ code would block forever waiting for a message
that the given arrival stream never delivers.  Messages emitted on the
bus are collected as explicit `Action` / `Reply` values.
-/

namespace MpiTcl

/-- Tag for sending a script (`MPI_TAG_SCRIPT`, mpitcl.h). -/
def MPI_TAG_SCRIPT : ℕ := 1

/-- Tag for sending Tcl encoded data (`MPI_TAG_TCLDATA`, mpitcl.h). -/
def MPI_TAG_TCLDATA : ℕ := 2

/-- Tag for sending binary data (`MPI_TAG_BINDATA`, mpitcl.h). -/
def MPI_TAG_BINDATA : ℕ := 3

/-- Modelled from the spec: the `STOP_NOTIFIER` tag value is
implementation-defined and distinct from tags 1–3; the header revision
defining `MPI_TAG_STOPTHREAD` is not among the sources, only its uses in
`CTclMpi::stopNotifier` and `mpiProbeThread`. -/
def MPI_TAG_STOPTHREAD : ℕ := 4

/-- The destination argument of `mpi execute` / `mpi send`: the literal
strings `"all"` and `"others"`, or a numeric rank (read as a C `int`,
hence possibly negative). -/
inductive Dest where
  | all : Dest
  | others : Dest
  | num : ℤ → Dest
deriving DecidableEq

/-- An observable action of a `CTclMpi` subcommand: an `MPI_Send` on the
bus, a local `GlobalEval` of a script, or spawning the receiver thread. -/
inductive Action where
  | send (dest : ℕ) (tag : ℕ) (payload : String) : Action
  | localEval (script : String) : Action
  | spawnThread : Action
deriving DecidableEq

/-- `CTclMpi::executeScript`: send `script` to `rank` with
`MPI_TAG_SCRIPT`. -/
def executeScript (rank : ℕ) (script : String) : Action :=
  Action.send rank MPI_TAG_SCRIPT script

/-- `CTclMpi::sendData`: send `data` to `rank` with `MPI_TAG_TCLDATA`. -/
def sendData (rank : ℕ) (data : String) : Action :=
  Action.send rank MPI_TAG_TCLDATA data

/-- `CTclMpi::execute` on a process of group size `s` and own rank `r`:
the list of emitted actions in order, or the thrown error string.
`"all"` sends to every `i ≠ r` then evaluates locally; `"others"` only
sends; a numeric destination is bounds-checked, evaluated locally when
equal to `r`, sent otherwise. -/
def executeCmd (s r : ℕ) (dest : Dest) (script : String) :
    Except String (List Action) :=
  match dest with
  | Dest.all =>
      Except.ok
        (((List.range s).filter (fun i => i ≠ r)).map
            (fun i => executeScript i script) ++ [Action.localEval script])
  | Dest.others =>
      Except.ok
        (((List.range s).filter (fun i => i ≠ r)).map
            (fun i => executeScript i script))
  | Dest.num receiver =>
      if (receiver < (s : ℤ)) ∧ (0 ≤ receiver) then
        if receiver ≠ (r : ℤ) then
          Except.ok [executeScript receiver.toNat script]
        else
          Except.ok [Action.localEval script]
      else
        Except.error "Invalid rank for execute"

/-- `CTclMpi::send` on a process of group size `s` and own rank `r`:
`"others"` sends to every `i ≠ r`; `"all"` sends to every rank
*including* `r` (the loop has no self test and there is no local
delivery); a numeric destination is bounds-checked and always sent. -/
def sendCmd (s r : ℕ) (dest : Dest) (data : String) :
    Except String (List Action) :=
  match dest with
  | Dest.others =>
      Except.ok
        (((List.range s).filter (fun i => i ≠ r)).map
            (fun i => sendData i data))
  | Dest.all =>
      Except.ok ((List.range s).map (fun i => sendData i data))
  | Dest.num rr =>
      if (rr < 0) ∨ ((s : ℤ) ≤ rr) then
        Except.error "Invalid rank for send"
      else
        Except.ok [sendData rr.toNat data]

/-- Destinations of the `send` actions in a trace, in order. -/
def sendDests : List Action → List ℕ
  | [] => []
  | Action.send d _ _ :: rest => d :: sendDests rest
  | Action.localEval _ :: rest => sendDests rest
  | Action.spawnThread :: rest => sendDests rest

/-- Scripts evaluated locally in a trace, in order. -/
def localEvals : List Action → List String
  | [] => []
  | Action.send _ _ _ :: rest => localEvals rest
  | Action.localEval s :: rest => s :: localEvals rest
  | Action.spawnThread :: rest => localEvals rest

/-- `CTclMpi::handle`: `h` is the current `m_pDataHandler` (`none` when
the pointer is null), `arg` the optional script argument.  Returns the
new handler state and the interpreter result string. -/
def handleCmd (h : Option String) (arg : Option String) :
    Option String × String :=
  match arg with
  | none =>
      match h with
      | some cur => (some cur, cur)
      | none => (none, "")
  | some s => if s = "" then (none, "") else (some s, "")

/-- `CTclMpi::stopNotifier`: only legal on rank 0, where it sends a
zero-length self-addressed `MPI_TAG_STOPTHREAD` message; any other rank
throws before any transport action. -/
def stopNotifierCmd (myrank : ℕ) : Except String (List Action) :=
  if myrank ≠ 0 then
    Except.error "stopnotifier can only be used in rank 0"
  else
    Except.ok [Action.send 0 MPI_TAG_STOPTHREAD ""]

/-- `CTclMpi::startNotifier`: only legal on rank 0, where it spawns the
probe thread; any other rank throws before any thread is created. -/
def startNotifierCmd (myrank : ℕ) : Except String (List Action) :=
  if myrank ≠ 0 then
    Except.error "startnotifier can only be used in rank 0"
  else
    Except.ok [Action.spawnThread]

/-- Outcome of dispatching one received message in `mpiEventProcessor`. -/
inductive DispatchResult where
  | evalScript (script : String) : DispatchResult
  | invokeHandler (handler : String) (src : ℕ) (payload : String) :
      DispatchResult
  | invokeBinHandler (src : ℕ) (size : ℕ) (payload : String) :
      DispatchResult
  | discard : DispatchResult
  | logUnrecognized (tag : ℕ) : DispatchResult
deriving DecidableEq

/-- `mpiEventProcessor` (mpitcl.cpp): after receiving the probed message
of `count` bytes with the given `tag` from `src`, dispatch on the tag.
`dataHandler` models `gpMpiCommand->m_pDataHandler`, `hasBinHandler`
models `gpBinaryDataHandler != nullptr`. -/
def mpiEventProcessor (dataHandler : Option String) (hasBinHandler : Bool)
    (tag src : ℕ) (payload : String) (count : ℕ) : DispatchResult :=
  if tag = MPI_TAG_SCRIPT then
    DispatchResult.evalScript payload
  else if tag = MPI_TAG_TCLDATA then
    match dataHandler with
    | some h => DispatchResult.invokeHandler h src payload
    | none => DispatchResult.discard
  else if tag = MPI_TAG_BINDATA then
    if hasBinHandler then
      DispatchResult.invokeBinHandler src count payload
    else
      DispatchResult.discard
  else
    DispatchResult.logUnrecognized tag

end MpiTcl

namespace MpiSpecTcl

/-- `CMPIDataGetter` (mpiSpecTclPackage.cpp): stores the rank argument
of the constructor in `m_sourceRank`. -/
structure CMPIDataGetter where
  m_sourceRank : ℤ
deriving DecidableEq

/-- The observable behaviour of one `CMPIDataGetter::read` call: where
the zero-length request goes, where the reply is probed/received from,
and the returned `(size, bytes)` pair. -/
structure ReadTrace where
  requestDest : ℕ
  requestLen : ℕ
  recvSource : ℕ
  result : ℕ × List ℕ
deriving DecidableEq

/-- `CMPIDataGetter::read`: sends a zero-length `MPI_TAG_BINDATA` request
to rank `0` (the literal in the code — `m_sourceRank` is never consulted),
probes rank `0` for the reply size, receives the reply from rank `0`, and
returns its size and bytes. -/
def CMPIDataGetter.read (g : CMPIDataGetter) (reply : List ℕ) : ReadTrace :=
  { requestDest := 0
    requestLen := 0
    recvSource := 0
    result := (reply.length, reply) }

/-- Caller-facing convention of `read`: a zero-size result means expect
no more data. -/
def isEndOfData (res : ℕ × List ℕ) : Bool :=
  decide (res.1 = 0)

/-- A reply message sent by the distributor on the `MPI_TAG_BINDATA`
channel: destination rank and payload bytes (empty = end-of-data). -/
structure Reply where
  dest : ℕ
  payload : List ℕ
deriving DecidableEq

/-- `CMPIDistributor::runDownConsumers` with `endFileToConsumer`
inlined: while `m_clientRanks` is nonempty, block for the next pending
request, send its source a zero-length reply and erase it from the set.
`pending` is the stream of request arrivals; `none` models blocking
forever in `MPI_Recv` because no further request ever arrives.  Returns
the replies sent in order and the final `m_clientRanks`. -/
def runDownConsumers : Finset ℕ → List ℕ → Option (List Reply × Finset ℕ)
  | clients, [] =>
      if clients = ∅ then some ([], clients) else none
  | clients, r :: rest =>
      if clients = ∅ then some ([], clients)
      else
        match runDownConsumers (clients.erase r) rest with
        | none => none
        | some (replies, final) => some (Reply.mk r [] :: replies, final)

/-- `CMPIDistributor::handleData`: a zero-length record runs the rundown
protocol; a real record blocks for one pending request, replies to its
source with the full record and inserts the source into
`m_clientRanks`. -/
def handleData (clients : Finset ℕ) (record : List ℕ)
    (pending : List ℕ) : Option (List Reply × Finset ℕ) :=
  if record.length = 0 then
    runDownConsumers clients pending
  else
    match pending with
    | [] => none
    | r :: _ => some ([Reply.mk r record], insert r clients)

end MpiSpecTcl

open MpiTcl MpiSpecTcl

/-! ### Helper lemmas about action traces -/

theorem sendDests_map_executeScript (script : String) (l : List ℕ) :
    sendDests (l.map (fun i => executeScript i script)) = l := by
  induction l with
  | nil => rfl
  | cons i rest ih => simpa [executeScript, sendDests] using ih

theorem sendDests_map_sendData (data : String) (l : List ℕ) :
    sendDests (l.map (fun i => sendData i data)) = l := by
  induction l with
  | nil => rfl
  | cons i rest ih => simpa [sendData, sendDests] using ih

theorem localEvals_map_executeScript (script : String) (l : List ℕ) :
    localEvals (l.map (fun i => executeScript i script)) = [] := by
  induction l with
  | nil => rfl
  | cons i rest ih => simpa [executeScript, localEvals] using ih

theorem localEvals_map_sendData (data : String) (l : List ℕ) :
    localEvals (l.map (fun i => sendData i data)) = [] := by
  induction l with
  | nil => rfl
  | cons i rest ih => simpa [sendData, localEvals] using ih

/-! ### Helper lemmas about the rundown protocol -/

theorem runDownConsumers_empty_clients (pending : List ℕ) :
    runDownConsumers ∅ pending = some ([], ∅) := by
  cases pending <;> simp [runDownConsumers]

theorem runDownConsumers_drain (pending : List ℕ) : ∀ clients : Finset ℕ,
    (∀ c ∈ clients, c ∈ pending) →
    ∃ n, runDownConsumers clients pending
        = some ((pending.take n).map (fun x => Reply.mk x []), ∅) ∧
      ∀ c ∈ clients, c ∈ pending.take n := by
  induction pending with
  | nil =>
      intro clients hc
      have hemp : clients = ∅ :=
        Finset.eq_empty_iff_forall_not_mem.mpr
          (fun c hcm => by simpa using hc c hcm)
      refine ⟨0, ?_, ?_⟩
      · rw [hemp]; simp [runDownConsumers]
      · simp [hemp]
  | cons r rest ih =>
      intro clients hc
      by_cases hemp : clients = ∅
      · exact ⟨0, by simp [runDownConsumers, hemp], by simp [hemp]⟩
      · have herase : ∀ c ∈ clients.erase r, c ∈ rest := by
          intro c hce
          rcases Finset.mem_erase.mp hce with ⟨hcr, hcc⟩
          have hmem := hc c hcc
          simp only [List.mem_cons] at hmem
          tauto
        obtain ⟨n, heq, hmem⟩ := ih (clients.erase r) herase
        refine ⟨n + 1, ?_, ?_⟩
        · simp [runDownConsumers, hemp, heq]
        · intro c hcm
          by_cases hcr : c = r
          · simp [hcr]
          · have := hmem c (Finset.mem_erase.mpr ⟨hcr, hcm⟩)
            simp [this]

theorem runDownConsumers_append (pending : List ℕ) :
    ∀ (clients : Finset ℕ) (replies : List Reply) (extra : List ℕ),
    runDownConsumers clients pending = some (replies, ∅) →
    runDownConsumers clients (pending ++ extra) = some (replies, ∅) := by
  induction pending with
  | nil =>
      intro clients replies extra h
      by_cases hemp : clients = ∅
      · simp [runDownConsumers, hemp] at h
        subst hemp
        rw [List.nil_append, runDownConsumers_empty_clients, h]
      · simp [runDownConsumers, hemp] at h
  | cons r rest ih =>
      intro clients replies extra h
      by_cases hemp : clients = ∅
      · simp [runDownConsumers, hemp] at h ⊢
        exact h
      · rw [List.cons_append]
        simp only [runDownConsumers, hemp, if_neg, ite_false] at h ⊢
        cases hrec : runDownConsumers (clients.erase r) rest with
        | none => rw [hrec] at h; simp at h
        | some p =>
            obtain ⟨replies1, final⟩ := p
            rw [hrec] at h
            simp only [Option.some.injEq, Prod.mk.injEq] at h
            rw [ih (clients.erase r) replies1 extra (by rw [hrec, h.2])]
            simp [h.1, h.2]

theorem runDownConsumers_unknown (clients : Finset ℕ) (r : ℕ) (rest : List ℕ)
    (hemp : clients ≠ ∅) (hnm : r ∉ clients) :
    runDownConsumers clients (r :: rest)
      = (runDownConsumers clients rest).map
          (fun p => (Reply.mk r [] :: p.1, p.2)) := by
  have herase : clients.erase r = clients := Finset.erase_eq_of_not_mem hnm
  simp only [runDownConsumers, hemp, ite_false, if_neg, herase]
  cases h : runDownConsumers clients rest with
  | none => simp
  | some p =>
      obtain ⟨a, b⟩ := p
      simp

/-! ### Claim theorems -/

/-- Claim C1 (amended): with destination `"all"`, `execute` sends the
script on the bus to exactly the ranks other than the caller, never to
the caller itself, and performs its single local evaluation last, after
all remote sends; `send` with destination `"all"`, by contrast, sends
the data on the bus to every rank of the group *including* the caller
and performs no direct local delivery. -/
theorem execute_all_local_last_send_all_includes_self
    (s r : ℕ) (hr : r < s) (script data : String) :
    (executeCmd s r Dest.all script
      = Except.ok
          (((List.range s).filter (fun i => i ≠ r)).map
              (fun i => executeScript i script)
            ++ [Action.localEval script])) ∧
    (sendDests
        (((List.range s).filter (fun i => i ≠ r)).map
            (fun i => executeScript i script))
      = (List.range s).filter (fun i => i ≠ r)) ∧
    (localEvals
        (((List.range s).filter (fun i => i ≠ r)).map
            (fun i => executeScript i script))
      = []) ∧
    (∀ i, i < s → i ≠ r → i ∈ (List.range s).filter (fun i => i ≠ r)) ∧
    (r ∉ (List.range s).filter (fun i => i ≠ r)) ∧
    (sendCmd s r Dest.all data
      = Except.ok ((List.range s).map (fun i => sendData i data))) ∧
    (sendDests ((List.range s).map (fun i => sendData i data))
      = List.range s) ∧
    (r ∈ sendDests ((List.range s).map (fun i => sendData i data))) ∧
    (localEvals ((List.range s).map (fun i => sendData i data)) = []) := by
  refine ⟨rfl, sendDests_map_executeScript script _,
    localEvals_map_executeScript script _, ?_, ?_, rfl,
    sendDests_map_sendData data _, ?_, localEvals_map_sendData data _⟩
  · intro i his hir
    simp [List.mem_filter, List.mem_range, his, hir]
  · simp
  · rw [sendDests_map_sendData data]
    simpa using hr

/-- Witness for C1 at group size 3, caller rank 1. -/
theorem execute_all_local_last_send_all_includes_self_witness :
    (1 < 3) ∧
    ((executeCmd 3 1 Dest.all "s"
      = Except.ok
          (((List.range 3).filter (fun i => i ≠ 1)).map
              (fun i => executeScript i "s")
            ++ [Action.localEval "s"])) ∧
    (sendDests
        (((List.range 3).filter (fun i => i ≠ 1)).map
            (fun i => executeScript i "s"))
      = (List.range 3).filter (fun i => i ≠ 1)) ∧
    (localEvals
        (((List.range 3).filter (fun i => i ≠ 1)).map
            (fun i => executeScript i "s"))
      = []) ∧
    (∀ i, i < 3 → i ≠ 1 → i ∈ (List.range 3).filter (fun i => i ≠ 1)) ∧
    (1 ∉ (List.range 3).filter (fun i => i ≠ 1)) ∧
    (sendCmd 3 1 Dest.all "d"
      = Except.ok ((List.range 3).map (fun i => sendData i "d"))) ∧
    (sendDests ((List.range 3).map (fun i => sendData i "d"))
      = List.range 3) ∧
    (1 ∈ sendDests ((List.range 3).map (fun i => sendData i "d"))) ∧
    (localEvals ((List.range 3).map (fun i => sendData i "d")) = [])) :=
  ⟨by decide,
   execute_all_local_last_send_all_includes_self 3 1 (by decide) "s" "d"⟩

/-- Counterexample to claim C1 as stated: on rank 0 of a two-process
group, `send` with destination `"all"` emits a bus message whose
destination is the calling rank itself, and evaluates nothing locally. -/
theorem send_all_includes_self_counterexample :
    sendCmd 2 0 Dest.all "d" = Except.ok [sendData 0 "d", sendData 1 "d"] ∧
    sendDests [sendData 0 "d", sendData 1 "d"] = [0, 1] ∧
    localEvals [sendData 0 "d", sendData 1 "d"] = [] :=
  ⟨rfl, rfl, rfl⟩

/-- Claim C2 (amended): when `offer` receives the end-of-data sentinel
(a zero-length record), rundown answers the pending pull requests in
FIFO arrival order, one zero-length reply per request, until
`ConsumerSet` is empty: provided every tracked consumer eventually
requests, the call terminates having answered exactly a prefix of the
arrival stream (each distinct requester in it exactly once, whether
tracked or not), every tracked consumer is among the answered
requesters, and the final `ConsumerSet` is empty.  Requests beyond that
prefix — arriving after the set empties — are not answered by this
call. -/
theorem rundown_drains_and_empties (clients : Finset ℕ) (pending : List ℕ)
    (hmem : ∀ c ∈ clients, c ∈ pending) (hnd : pending.Nodup) :
    ∃ n, handleData clients [] pending
        = some ((pending.take n).map (fun x => Reply.mk x []), ∅) ∧
      (∀ c ∈ clients, c ∈ pending.take n) ∧
      (pending.take n).Nodup := by
  obtain ⟨n, heq, hm⟩ := runDownConsumers_drain pending clients hmem
  exact ⟨n, by simpa [handleData] using heq, hm,
    hnd.sublist (List.take_sublist n pending)⟩

/-- Witness for C2 with tracked consumers 1 and 2 and arrival order
2, 3, 1. -/
theorem rundown_drains_and_empties_witness :
    (∀ c ∈ ({1, 2} : Finset ℕ), c ∈ [2, 3, 1]) ∧
    ([2, 3, 1] : List ℕ).Nodup ∧
    ∃ n, handleData {1, 2} [] [2, 3, 1]
        = some ((([2, 3, 1] : List ℕ).take n).map (fun x => Reply.mk x []), ∅) ∧
      (∀ c ∈ ({1, 2} : Finset ℕ), c ∈ ([2, 3, 1] : List ℕ).take n) ∧
      (([2, 3, 1] : List ℕ).take n).Nodup :=
  ⟨by decide, by decide,
   rundown_drains_and_empties {1, 2} [2, 3, 1] (by decide) (by decide)⟩

/-- Counterexample to claim C2 as stated: with `ConsumerSet = {1}` at
the sentinel and pull requests arriving from rank 1 and then rank 5,
rundown stops after answering rank 1 (the set is then empty), so rank 5
— which did issue a pull request — receives no reply at all, refuting
the universal "every rank that had or later issues a pull request
receives exactly one zero-length reply". -/
theorem rundown_late_request_unanswered_counterexample :
    runDownConsumers {1} [1, 5] = some ([Reply.mk 1 []], ∅) ∧
    ([Reply.mk 1 []].countP (fun rep => rep.dest == 5)) = 0 := by
  constructor
  · decide
  · decide

/-- Claim C3 (confirmed): `offer` with a real (nonzero-length) record
answers exactly one pull request: it takes the next pending requester
`r`, sends `r` one reply carrying the full record, inserts `r` into
`ConsumerSet`, and sends nothing to anyone else; with no pending
request it blocks. -/
theorem handleData_single_requester (clients : Finset ℕ)
    (record : List ℕ) (hrec : record ≠ []) (r : ℕ) (rest : List ℕ) :
    handleData clients record (r :: rest)
      = some ([Reply.mk r record], insert r clients) ∧
    handleData clients record [] = none := by
  have hlen : record.length ≠ 0 := by
    simpa [List.length_eq_zero] using hrec
  constructor <;> simp [handleData, hlen]

/-- Witness for C3: record `[7, 8]` offered while rank 4 requests. -/
theorem handleData_single_requester_witness :
    (([7, 8] : List ℕ) ≠ []) ∧
    (handleData {1} [7, 8] [4, 9]
        = some ([Reply.mk 4 [7, 8]], insert 4 {1}) ∧
      handleData {1} [7, 8] [] = none) :=
  ⟨by decide, handleData_single_requester {1} [7, 8] (by decide) 4 [9]⟩

/-- Claim C4 (amended): `CMPIDataGetter.read` sends its zero-length pull
request to rank 0 — the rank hard-coded in the implementation, not the
rank stored by the constructor — probes and receives the reply from
rank 0, and returns the reply as a `(size, bytes)` pair; a zero-length
reply is the end-of-data signal and any other size is a valid record. -/
theorem read_requests_rank_zero (g : CMPIDataGetter) (reply : List ℕ) :
    (g.read reply).requestDest = 0 ∧
    (g.read reply).requestLen = 0 ∧
    (g.read reply).recvSource = 0 ∧
    (g.read reply).result = (reply.length, reply) ∧
    (isEndOfData (g.read reply).result = true ↔ reply = []) := by
  refine ⟨rfl, rfl, rfl, rfl, ?_⟩
  simp [CMPIDataGetter.read, isEndOfData, List.length_eq_zero]

/-- Counterexample to claim C4 as stated: a getter constructed with rank
5 still sends its pull request to rank 0 and receives from rank 0, not
from the rank it was constructed with. -/
theorem read_ignores_constructed_rank_counterexample :
    (CMPIDataGetter.mk 5).m_sourceRank = 5 ∧
    (CMPIDataGetter.read (CMPIDataGetter.mk 5) [7]).requestDest = 0 ∧
    (((CMPIDataGetter.read (CMPIDataGetter.mk 5) [7]).requestDest : ℤ)
      ≠ (CMPIDataGetter.mk 5).m_sourceRank) ∧
    (CMPIDataGetter.read (CMPIDataGetter.mk 5) [7]).recvSource = 0 := by
  refine ⟨rfl, rfl, ?_, rfl⟩
  decide

/-- Claim C5 (amended): `execute` with the numeric destination equal to
the own rank evaluates the script locally and sends nothing; with any
other in-range numeric destination it sends the script to that rank.
`send`, however, always transmits over the bus for every in-range
numeric destination — including the own rank, so a self-addressed data
message does traverse the bus. -/
theorem numeric_dest_execute_local_send_always_bus
    (s r : ℕ) (hr : r < s) (script data : String)
    (q : ℤ) (h0 : 0 ≤ q) (hq : q < (s : ℤ)) :
    (executeCmd s r (Dest.num (r : ℤ)) script
      = Except.ok [Action.localEval script]) ∧
    (q ≠ (r : ℤ) →
      executeCmd s r (Dest.num q) script
        = Except.ok [executeScript q.toNat script]) ∧
    (sendCmd s r (Dest.num q) data = Except.ok [sendData q.toNat data]) ∧
    (sendCmd s r (Dest.num (r : ℤ)) data = Except.ok [sendData r data]) := by
  refine ⟨?_, ?_, ?_, ?_⟩
  · have hrs : (r : ℤ) < (s : ℤ) := by exact_mod_cast hr
    simp [executeCmd, hrs]
  · intro hqr
    simp [executeCmd, hq, h0, hqr]
  · have hns : ¬(q < 0 ∨ (s : ℤ) ≤ q) := by omega
    simp [sendCmd, hns]
  · have hns : ¬((r : ℤ) < 0 ∨ (s : ℤ) ≤ (r : ℤ)) := by
      push_neg
      constructor <;> [positivity; exact_mod_cast hr]
    simp [sendCmd, hns]
    omega

/-- Witness for C5 at group size 3, own rank 1, other destination 2. -/
theorem numeric_dest_execute_local_send_always_bus_witness :
    (1 < 3) ∧ ((0 : ℤ) ≤ 2) ∧ ((2 : ℤ) < (3 : ℕ)) ∧
    ((executeCmd 3 1 (Dest.num ((1 : ℕ) : ℤ)) "s"
        = Except.ok [Action.localEval "s"]) ∧
      ((2 : ℤ) ≠ ((1 : ℕ) : ℤ) →
        executeCmd 3 1 (Dest.num 2) "s"
          = Except.ok [executeScript (2 : ℤ).toNat "s"]) ∧
      (sendCmd 3 1 (Dest.num 2) "d"
        = Except.ok [sendData (2 : ℤ).toNat "d"]) ∧
      (sendCmd 3 1 (Dest.num ((1 : ℕ) : ℤ)) "d"
        = Except.ok [sendData 1 "d"])) :=
  ⟨by decide, by decide, by decide,
   numeric_dest_execute_local_send_always_bus 3 1 (by decide) "s" "d" 2
     (by decide) (by decide)⟩

/-- Counterexample to claim C5 as stated: on rank 0 of a two-process
group, `send` with numeric destination 0 (the own rank) emits a
self-addressed bus message instead of delivering locally. -/
theorem send_self_traverses_bus_counterexample :
    sendCmd 2 0 (Dest.num 0) "d" = Except.ok [sendData 0 "d"] ∧
    sendDests [sendData 0 "d"] = [0] ∧
    localEvals [sendData 0 "d"] = [] :=
  ⟨rfl, rfl, rfl⟩

/-- Claim C6 (confirmed): every numeric destination `q` with `q < 0` or
`q ≥ s` makes both `execute` and `send` fail with the invalid-rank
error; the error return carries no actions, so no message reaches the
bus. -/
theorem out_of_range_dest_rejected (s r : ℕ) (q : ℤ)
    (hq : q < 0 ∨ (s : ℤ) ≤ q) (script data : String) :
    executeCmd s r (Dest.num q) script
      = Except.error "Invalid rank for execute" ∧
    sendCmd s r (Dest.num q) data
      = Except.error "Invalid rank for send" := by
  have hns : ¬(q < (s : ℤ) ∧ 0 ≤ q) := by omega
  constructor
  · simp [executeCmd, hns]
  · simp [sendCmd, hq]

/-- Witness for C6 at destination -1 and at destination `s` itself. -/
theorem out_of_range_dest_rejected_witness :
    ((-1 : ℤ) < 0 ∨ ((2 : ℕ) : ℤ) ≤ (-1 : ℤ)) ∧
    (executeCmd 2 0 (Dest.num (-1)) "s"
        = Except.error "Invalid rank for execute" ∧
      sendCmd 2 0 (Dest.num (-1)) "d"
        = Except.error "Invalid rank for send") :=
  ⟨by decide, out_of_range_dest_rejected 2 0 (-1) (by decide) "s" "d"⟩

/-- Claim C7 (confirmed): the `handle` accessor satisfies the round-trip
laws — querying with no handler installed returns the empty string;
after setting a non-empty script `h` (over any prior state) a query
returns `h`; after setting the empty string (over any prior state) a
query returns the empty string. -/
theorem handle_roundtrip (prior : Option String) (h : String)
    (hne : h ≠ "") :
    (handleCmd none none).2 = "" ∧
    (handleCmd (handleCmd prior (some h)).1 none).2 = h ∧
    (handleCmd (handleCmd prior (some "")).1 none).2 = "" := by
  refine ⟨rfl, ?_, rfl⟩
  simp [handleCmd, hne]

/-- Witness for C7 with handler script "onData" over a prior handler. -/
theorem handle_roundtrip_witness :
    ("onData" ≠ "") ∧
    ((handleCmd none none).2 = "" ∧
      (handleCmd (handleCmd (some "old") (some "onData")).1 none).2
        = "onData" ∧
      (handleCmd (handleCmd (some "old") (some "")).1 none).2 = "") :=
  ⟨by decide, handle_roundtrip (some "old") "onData" (by decide)⟩

/-- Claim C8 (confirmed): invoked on any rank other than 0, both
`stopnotifier` and `startnotifier` fail with their role error; the
error return carries no actions, so no message is sent and no thread is
spawned. -/
theorem notifier_role_violation (myrank : ℕ) (h : myrank ≠ 0) :
    stopNotifierCmd myrank
      = Except.error "stopnotifier can only be used in rank 0" ∧
    startNotifierCmd myrank
      = Except.error "startnotifier can only be used in rank 0" := by
  constructor <;> simp [stopNotifierCmd, startNotifierCmd, h]

/-- Witness for C8 at rank 3. -/
theorem notifier_role_violation_witness :
    ((3 : ℕ) ≠ 0) ∧
    (stopNotifierCmd 3
        = Except.error "stopnotifier can only be used in rank 0" ∧
      startNotifierCmd 3
        = Except.error "startnotifier can only be used in rank 0") :=
  ⟨by decide, notifier_role_violation 3 (by decide)⟩

/-- Claim C9 (confirmed): `mpiEventProcessor` dispatches a received
message by its tag — a SCRIPT message is evaluated; a STRUCTURED_DATA
message is passed to the registered handler with the source rank and
payload when one is registered and discarded otherwise; a BULK_DATA
message is passed to the registered binary callback with the source
rank, size and payload when one is registered and discarded otherwise;
any other tag is logged and discarded, never fatal. -/
theorem event_processor_dispatch (dh : Option String) (bh : Bool)
    (h : String) (tag src cnt : ℕ) (payload : String) :
    (mpiEventProcessor dh bh MPI_TAG_SCRIPT src payload cnt
      = DispatchResult.evalScript payload) ∧
    (mpiEventProcessor (some h) bh MPI_TAG_TCLDATA src payload cnt
      = DispatchResult.invokeHandler h src payload) ∧
    (mpiEventProcessor none bh MPI_TAG_TCLDATA src payload cnt
      = DispatchResult.discard) ∧
    (mpiEventProcessor dh true MPI_TAG_BINDATA src payload cnt
      = DispatchResult.invokeBinHandler src cnt payload) ∧
    (mpiEventProcessor dh false MPI_TAG_BINDATA src payload cnt
      = DispatchResult.discard) ∧
    (tag ≠ MPI_TAG_SCRIPT → tag ≠ MPI_TAG_TCLDATA → tag ≠ MPI_TAG_BINDATA →
      mpiEventProcessor dh bh tag src payload cnt
        = DispatchResult.logUnrecognized tag) := by
  refine ⟨?_, ?_, ?_, ?_, ?_, ?_⟩
  · simp [mpiEventProcessor, MPI_TAG_SCRIPT, MPI_TAG_TCLDATA, MPI_TAG_BINDATA]
  · simp [mpiEventProcessor, MPI_TAG_SCRIPT, MPI_TAG_TCLDATA, MPI_TAG_BINDATA]
  · simp [mpiEventProcessor, MPI_TAG_SCRIPT, MPI_TAG_TCLDATA, MPI_TAG_BINDATA]
  · simp [mpiEventProcessor, MPI_TAG_SCRIPT, MPI_TAG_TCLDATA, MPI_TAG_BINDATA]
  · simp [mpiEventProcessor, MPI_TAG_SCRIPT, MPI_TAG_TCLDATA, MPI_TAG_BINDATA]
  · intro h1 h2 h3
    simp [mpiEventProcessor, h1, h2, h3]

/-- Witness for C9 at tag 9 (unrecognized). -/
theorem event_processor_dispatch_witness :
    ((9 : ℕ) ≠ MPI_TAG_SCRIPT) ∧ ((9 : ℕ) ≠ MPI_TAG_TCLDATA) ∧
    ((9 : ℕ) ≠ MPI_TAG_BINDATA) ∧
    ((mpiEventProcessor (some "hdl") true MPI_TAG_SCRIPT 2 "p" 5
        = DispatchResult.evalScript "p") ∧
      (mpiEventProcessor (some "hdl") true MPI_TAG_TCLDATA 2 "p" 5
        = DispatchResult.invokeHandler "hdl" 2 "p") ∧
      (mpiEventProcessor none true MPI_TAG_TCLDATA 2 "p" 5
        = DispatchResult.discard) ∧
      (mpiEventProcessor (some "hdl") true MPI_TAG_BINDATA 2 "p" 5
        = DispatchResult.invokeBinHandler 2 5 "p") ∧
      (mpiEventProcessor (some "hdl") false MPI_TAG_BINDATA 2 "p" 5
        = DispatchResult.discard) ∧
      ((9 : ℕ) ≠ MPI_TAG_SCRIPT → (9 : ℕ) ≠ MPI_TAG_TCLDATA →
        (9 : ℕ) ≠ MPI_TAG_BINDATA →
        mpiEventProcessor (some "hdl") true 9 2 "p" 5
          = DispatchResult.logUnrecognized 9)) :=
  ⟨by decide, by decide, by decide,
   event_processor_dispatch (some "hdl") true "hdl" 9 2 5 "p"⟩

/-- Claim C10 (confirmed): if `ConsumerSet` is empty when `offer`
receives the sentinel, rundown sends no replies and returns at once;
once a rundown completes with the set empty, any requests still
arriving afterwards leave the outcome unchanged and get no reply; and
answering a requester that was never recorded in `ConsumerSet` sends it
a zero-length reply without shrinking the set passed to the rest of the
loop. -/
theorem rundown_stop_behaviour (pending extra rest : List ℕ)
    (clients : Finset ℕ) (replies : List Reply) (r : ℕ)
    (h1 : runDownConsumers clients pending = some (replies, ∅))
    (h2 : r ∉ clients) (h3 : clients ≠ ∅) :
    handleData ∅ [] pending = some ([], ∅) ∧
    runDownConsumers clients (pending ++ extra) = some (replies, ∅) ∧
    runDownConsumers clients (r :: rest)
      = (runDownConsumers clients rest).map
          (fun p => (Reply.mk r [] :: p.1, p.2)) :=
  ⟨by simpa [handleData] using runDownConsumers_empty_clients pending,
   runDownConsumers_append pending clients replies extra h1,
   runDownConsumers_unknown clients r rest h3 h2⟩

/-- Witness for C10 with set `{1}`, completed rundown `[1]`, late
arrivals `[9]`, and untracked requester 7. -/
theorem rundown_stop_behaviour_witness :
    (runDownConsumers {1} [1] = some ([Reply.mk 1 []], ∅)) ∧
    ((7 : ℕ) ∉ ({1} : Finset ℕ)) ∧ (({1} : Finset ℕ) ≠ ∅) ∧
    (handleData ∅ [] [1] = some ([], ∅) ∧
      runDownConsumers {1} ([1] ++ [9]) = some ([Reply.mk 1 []], ∅) ∧
      runDownConsumers {1} (7 :: [2])
        = (runDownConsumers {1} [2]).map
            (fun p => (Reply.mk 7 [] :: p.1, p.2))) :=
  ⟨by decide, by decide, by decide,
   rundown_stop_behaviour [1] [9] [2] {1} [Reply.mk 1 []] 7
     (by decide) (by decide) (by decide)⟩
